import Mathlib

/-!
# Verification of the UxPlay BLE beacon helper (mac_beacon.py)

Shallow embedding of the three core components of the beacon script:

* `get_uxplay_port` (PortResolver)  — reads the state file and recovers a
  port via an ordered text-then-binary fallback;
* `get_best_ip` (AddressSelector)   — picks a broadcastable IPv4 address
  from two best-effort probes of the network stack;
* `assemble` (PayloadAssembler)     — packs the fixed 12-byte manufacturer
  payload, lines 101-107 of the source, factored out as the contract of
  section 4.3 of the design document names it.

Bytes are modelled as `Nat` values below 256 in `List Nat`; file system and
network state are explicit records, so the exceptional outcomes of the
Python runtime (missing file, socket errors) are constructor cases.
-/

/-! ## Port resolver (`get_uxplay_port`, source lines 58-85) -/

/-- State of the port file: whether the path exists, and the raw bytes
`open(path, "rb").read()` would yield when it does. -/
structure FS where
  fileExists : Bool
  content : List Nat

/-- The two terminal failures of the resolver. The source prints a distinct
message and returns `None` at each of the two failure sites (lines 60-61 and
84-85); the error taxonomy of the design document names them `FileMissing`
and `PortParseError`. -/
inductive PortError where
  | fileMissing
  | portParseError

/-- `content.split(b'\n')[0].split(b'\x00')[0]` : the bytes before the first
newline, then the bytes of that slice before the first null. -/
def textChunk (content : List Nat) : List Nat :=
  (content.takeWhile fun b => b != 10).takeWhile fun b => b != 0

/-- Python `int` applied to a string of decimal digit characters, acting on
the underlying byte values. -/
def natOfDigits (l : List Nat) : Nat :=
  l.foldl (fun a b => a * 10 + (b - 48)) 0

/-- `bytes.decode("ascii")` succeeds exactly when every byte is below 128. -/
def isAsciiList (l : List Nat) : Bool :=
  l.all fun b => b ≤ 127

/-- `str.isdigit` on an ASCII-decoded string: nonempty and every character
between the codes of the characters 0 and 9. -/
def isDigitsList (l : List Nat) : Bool :=
  !l.isEmpty && l.all fun b => 48 ≤ b && b ≤ 57

/-- Strategy 1 of the resolver (source lines 66-73): slice out the first
line, ASCII-decode it, and accept it when it is a nonempty digit string.
A decode failure or a failing digit test both fall through to `none`. -/
def textStrategy (content : List Nat) : Option Nat :=
  let chunk := textChunk content
  if isAsciiList chunk && isDigitsList chunk then some (natOfDigits chunk)
  else none

/-- Strategy 2 of the resolver (source lines 75-82): with at least two bytes
present, read the first two as a big-endian unsigned 16-bit value and accept
it only inside [1024, 65535]. -/
def binaryStrategy (content : List Nat) : Option Nat :=
  match content with
  | b0 :: b1 :: _ =>
    let port := b0 * 256 + b1
    if 1024 ≤ port ∧ port ≤ 65535 then some port else none
  | _ => none

/-- Ordered fallback over the file content: the text strategy first, the
binary strategy only when the text strategy yields nothing. -/
def parsePort (content : List Nat) : Option Nat :=
  match textStrategy content with
  | some p => some p
  | none => binaryStrategy content

/-- `get_uxplay_port` (source lines 58-85): missing path is `fileMissing`;
otherwise the strategies run on the content and an exhausted fallback chain
is `portParseError`. -/
def get_uxplay_port (fs : FS) : Except PortError Nat :=
  if fs.fileExists = false then .error .fileMissing
  else
    match parsePort fs.content with
    | some p => .ok p
    | none => .error .portParseError

/-! ## Address selector (`get_best_ip`, source lines 18-56) -/

/-- Observable outcome of the two network probes.

* `probeA`: the `socket.connect` / `getsockname` attempt of lines 24-32.
  `none` models any raised exception (swallowed by the bare `except`);
  `some ip` is the locally bound address read back.
* `probeB`: `socket.gethostbyname_ex(hostname)[2]` of lines 35-54. `none`
  models a raised exception; `some l` is the returned address list. -/
structure NetEnv where
  probeA : Option String
  probeB : Option (List String)

/-- `str.startswith`, by direct recursion on the character lists. -/
def swL : List Char → List Char → Bool
  | _, [] => true
  | [], _ :: _ => false
  | c :: cs, p :: ps => c = p && swL cs ps

/-- `s.startswith(pat)` for the embedded strings. -/
def strStartsWith (s pat : String) : Bool :=
  swL s.data pat.data

/-- The first loop of attempt 2 (lines 41-47): for each address in list
order, return it as soon as it carries any of the three literal prefixes. -/
def pickUseful : List String → Option String
  | [] => none
  | ip :: rest =>
    if strStartsWith ip "192.168." then some ip
    else if strStartsWith ip "10." then some ip
    else if strStartsWith ip "172." then some ip
    else pickUseful rest

/-- The second loop of attempt 2 (lines 50-52): first address differing from
the loopback literal. -/
def pickNonLoopback : List String → Option String
  | [] => none
  | ip :: rest =>
    if ip ≠ "127.0.0.1" then some ip else pickNonLoopback rest

/-- Attempt 2 plus the last-resort return (lines 34-56): enumeration failure
or two exhausted loops end at the loopback literal. -/
def attempt2 (env : NetEnv) : String :=
  match env.probeB with
  | none => "127.0.0.1"
  | some ipList =>
    match pickUseful ipList with
    | some ip => ip
    | none =>
      match pickNonLoopback ipList with
      | some ip => ip
      | none => "127.0.0.1"

/-- `get_best_ip` (lines 18-56): a successful attempt 1 returns its address
unless it is the loopback; every other path continues with attempt 2. -/
def get_best_ip (env : NetEnv) : String :=
  match env.probeA with
  | some ip => if ip ≠ "127.0.0.1" then ip else attempt2 env
  | none => attempt2 env

/-! ## `socket.inet_aton`

The script converts the chosen address with `socket.inet_aton` (line 104),
which defers to the C library routine for numbers-and-dots notation: up to
four dot-separated numbers, each in decimal, octal (leading 0) or
hexadecimal (leading 0x), trailing bytes allowed only after whitespace,
with the classic 8.24 / 8.8.16 / 8.8.8.8 bit splits. The C loop stores at
most three parts before the final number and fails on a fourth dot, so it
is unrolled here into four number parses. -/

/-- Decimal digit character test, on the code point. -/
def isDigitChar (c : Char) : Bool :=
  48 ≤ c.toNat && c.toNat ≤ 57

/-- Octal digit character test. -/
def isOctDigit (c : Char) : Bool :=
  48 ≤ c.toNat && c.toNat ≤ 55

/-- Hexadecimal digit character test. -/
def isHexDigitC (c : Char) : Bool :=
  isDigitChar c || (97 ≤ c.toNat && c.toNat ≤ 102) || (65 ≤ c.toNat && c.toNat ≤ 70)

/-- Value of a hexadecimal digit character. -/
def hexVal (c : Char) : Nat :=
  if isDigitChar c then c.toNat - 48
  else if 97 ≤ c.toNat then c.toNat - 87
  else c.toNat - 55

/-- Accumulating loop of the decimal case: consume digits, stop at the first
non-digit. -/
def decLoop (acc : Nat) : List Char → Nat × List Char
  | [] => (acc, [])
  | c :: cs =>
    if isDigitChar c then decLoop (acc * 10 + (c.toNat - 48)) cs
    else (acc, c :: cs)

/-- Accumulating loop of the octal case; the digits 8 and 9 reject the whole
number, as in the C routine. -/
def octLoop (acc : Nat) : List Char → Option (Nat × List Char)
  | [] => some (acc, [])
  | c :: cs =>
    if isOctDigit c then octLoop (acc * 8 + (c.toNat - 48)) cs
    else if isDigitChar c then none
    else some (acc, c :: cs)

/-- Accumulating loop of the hexadecimal case. -/
def hexLoop (acc : Nat) : List Char → Nat × List Char
  | [] => (acc, [])
  | c :: cs =>
    if isHexDigitC c then hexLoop (acc * 16 + hexVal c) cs
    else (acc, c :: cs)

/-- One number of the notation: a leading digit is required, a leading 0
selects octal, a leading 0x or 0X selects hexadecimal. Returns the value and
the unconsumed remainder. -/
def parseNum : List Char → Option (Nat × List Char)
  | [] => none
  | c :: cs =>
    if isDigitChar c then
      if c = '0' then
        match cs with
        | [] => octLoop 0 []
        | c2 :: cs2 =>
          if c2 = 'x' || c2 = 'X' then some (hexLoop 0 cs2)
          else octLoop 0 (c2 :: cs2)
      else some (decLoop 0 (c :: cs))
    else none

/-- The whitespace class the C routine tolerates right after the last
number. -/
def isSpaceChar (c : Char) : Bool :=
  c = ' ' || c = '\t' || c = '\n' || c.toNat = 11 || c.toNat = 12 || c.toNat = 13

/-- Final assembly of the address bytes from the stored parts and the last
value, with the per-arity range checks of the C switch. -/
def finishParts (parts : List Nat) (val : Nat) : Option (List Nat) :=
  match parts with
  | [] =>
    if val ≤ 4294967295 then
      some [val / 16777216 % 256, val / 65536 % 256, val / 256 % 256, val % 256]
    else none
  | [a] =>
    if a ≤ 255 ∧ val ≤ 16777215 then
      some [a, val / 65536 % 256, val / 256 % 256, val % 256]
    else none
  | [a, b] =>
    if a ≤ 255 ∧ b ≤ 255 ∧ val ≤ 65535 then some [a, b, val / 256, val % 256]
    else none
  | [a, b, c] =>
    if a ≤ 255 ∧ b ≤ 255 ∧ c ≤ 255 ∧ val ≤ 255 then some [a, b, c, val]
    else none
  | _ => none

/-- Trailing-character rule: the character after the last number must be
absent or whitespace (anything may follow the whitespace). -/
def finish (parts : List Nat) (val : Nat) (rest : List Char) : Option (List Nat) :=
  match rest with
  | [] => finishParts parts val
  | c :: _ => if isSpaceChar c then finishParts parts val else none

/-- The main loop of the C routine, unrolled: at most three parts are stored
before the final number, and a dot after a full store fails. -/
def atonCore (cp : List Char) : Option (List Nat) :=
  match parseNum cp with
  | none => none
  | some (v1, r1) =>
    match r1 with
    | '.' :: r1x =>
      match parseNum r1x with
      | none => none
      | some (v2, r2) =>
        match r2 with
        | '.' :: r2x =>
          match parseNum r2x with
          | none => none
          | some (v3, r3) =>
            match r3 with
            | '.' :: r3x =>
              match parseNum r3x with
              | none => none
              | some (v4, r4) =>
                match r4 with
                | '.' :: _ => none
                | _ => finish [v1, v2, v3] v4 r4
            | _ => finish [v1, v2] v3 r3
        | _ => finish [v1] v2 r2
    | _ => finish [] v1 r1

/-- `socket.inet_aton`: the four network-order address bytes, or `none` for
a rejected string (the `OSError` the Python call raises). -/
def inet_aton (s : String) : Option (List Nat) :=
  atonCore s.data

/-! ## Payload assembler and publisher boundary (lines 92-116) -/

/-- Failures of the assembly step: `invalidAddress` is the `inet_aton`
rejection of section 7 of the design document, `structError` the range
failure of `struct.pack(">H", port)`. -/
inductive AssembleError where
  | invalidAddress
  | structError

/-- `struct.pack(">H", n)`: two big-endian bytes for a value below 2^16,
an exception otherwise. -/
def pack16 (n : Nat) : Option (List Nat) :=
  if n ≤ 65535 then some [n / 256, n % 256] else none

/-- `struct.pack(">H", 0x004C)`, line 101. -/
def company_id : List Nat := [0x00, 0x4C]

/-- The literal two type bytes of line 102. -/
def pfx : List Nat := [0x09, 0x08]

/-- The literal two magic bytes of line 103. -/
def magic : List Nat := [0x13, 0x30]

/-- PayloadAssembler (lines 101-107, the contract `assemble` of section 4.3):
convert the address, pack the port, concatenate the five fields in source
order. -/
def assemble (addr : String) (port : Nat) : Except AssembleError (List Nat) :=
  match inet_aton addr with
  | none => .error .invalidAddress
  | some ipBytes =>
    match pack16 port with
    | none => .error .structError
    | some portBytes => .ok (company_id ++ pfx ++ magic ++ ipBytes ++ portBytes)

/-- Outcome of the `start_advertising` callback: `exited code` is
`sys.exit(code)`, `crashed` an uncaught exception out of the assembly calls,
`advertising` the `manager.startAdvertising_` call with its name and
manufacturer payload. -/
inductive StartResult where
  | exited (code : Nat)
  | crashed
  | advertising (localName : String) (payload : List Nat)

/-- `BeaconDelegate.start_advertising` (lines 92-116): a falsy port —
resolution failure or the resolved value 0 — exits with status 1 before any
radio call; otherwise the payload is assembled from the selected address and
advertised under the fixed name. -/
def start_advertising (fs : FS) (env : NetEnv) : StartResult :=
  match get_uxplay_port fs with
  | .error _ => .exited 1
  | .ok port =>
    if port == 0 then .exited 1
    else
      match assemble (get_best_ip env) port with
      | .error _ => .crashed
      | .ok payload => .advertising "UxPlay" payload

/-! ## Two definitions written from the words of the claims

These two do not embed source code; they render the notions the claims
quantify over, for comparison against the embedded functions. -/

/-- Splitting a character list at every dot. -/
def splitDots : List Char → List (List Char)
  | [] => [[]]
  | c :: cs =>
    if c = '.' then [] :: splitDots cs
    else
      match splitDots cs with
      | g :: gs => (c :: g) :: gs
      | [] => [[c]]

/-- Value of a decimal digit-character list. -/
def decValue (cs : List Char) : Nat :=
  cs.foldl (fun a c => a * 10 + (c.toNat - 48)) 0

/-- A decimal octet as the claims use the phrase: nonempty, all decimal
digits, value at most 255. -/
def isOctetChars (cs : List Char) : Bool :=
  !cs.isEmpty && cs.all isDigitChar && decValue cs ≤ 255

/-- A well-formed dotted-quad address string as the claims use the phrase:
exactly four decimal octets separated by dots. -/
def specDottedQuad (s : String) : Bool :=
  match splitDots s.data with
  | [a, b, c, d] => isOctetChars a && isOctetChars b && isOctetChars c && isOctetChars d
  | _ => false

/-- The decimal digit character of a value below ten. -/
def digitChar (d : Nat) : Char :=
  Char.ofNat (48 + d)

/-- Canonical decimal rendering of a natural number, no leading zeros. -/
def renderNat (n : Nat) : List Char :=
  if n < 10 then [digitChar n]
  else renderNat (n / 10) ++ [digitChar (n % 10)]
decreasing_by exact Nat.div_lt_self (by omega) (by omega)

/-- The canonical dotted-quad string of four octet values. -/
def quadStr (a b c d : Nat) : String :=
  String.mk (renderNat a ++ ('.' :: (renderNat b ++ ('.' :: (renderNat c ++ ('.' :: renderNat d))))))

/-! ## Helper lemmas -/

/-- A value accepted by the binary strategy lies in the checked range. -/
theorem binaryStrategy_range {content : List Nat} {v : Nat}
    (h : binaryStrategy content = some v) : 1024 ≤ v ∧ v ≤ 65535 := by
  rcases content with _ | ⟨b0, ct⟩
  · simp [binaryStrategy] at h
  rcases ct with _ | ⟨b1, rest⟩
  · simp [binaryStrategy] at h
  rw [show binaryStrategy (b0 :: b1 :: rest) =
      (if 1024 ≤ b0 * 256 + b1 ∧ b0 * 256 + b1 ≤ 65535 then some (b0 * 256 + b1) else none)
      from rfl] at h
  split at h
  · rename_i hc
    injection h with hv
    omega
  · cases h

/-- With an existing file, a resolver success is a success of the strategy
chain on the content. -/
theorem get_uxplay_port_ok {content : List Nat} {v : Nat}
    (h : get_uxplay_port ⟨true, content⟩ = .ok v) : parsePort content = some v := by
  simp only [get_uxplay_port] at h
  simp at h
  cases hp : parsePort content with
  | none => rw [hp] at h; cases h
  | some p => rw [hp] at h; injection h with h2; rw [h2]

/-! ## Claim theorems -/

/-- C1: the claim predicts the 12-byte payload 4C 00 09 08 13 30 C0 A8 01 2A
1B 58 for address 192.168.1.42 and port 7000. The code packs the vendor id
big-endian, so the payload begins 00 4C instead: the produced sequence
differs from the claimed one in its first two bytes. -/
theorem assemble_192_counterexample :
    assemble "192.168.1.42" 7000 =
      .ok [0x00, 0x4C, 0x09, 0x08, 0x13, 0x30, 0xC0, 0xA8, 0x01, 0x2A, 0x1B, 0x58] ∧
    ([0x00, 0x4C, 0x09, 0x08, 0x13, 0x30, 0xC0, 0xA8, 0x01, 0x2A, 0x1B, 0x58] : List Nat) ≠
      [0x4C, 0x00, 0x09, 0x08, 0x13, 0x30, 0xC0, 0xA8, 0x01, 0x2A, 0x1B, 0x58] :=
  ⟨rfl, by decide⟩

/-- C1 (amended): the payload for address 192.168.1.42 and port 7000 is
exactly 00 4C 09 08 13 30 C0 A8 01 2A 1B 58 — vendor id 0x004C big-endian
as the two bytes 00 4C, then prefix, magic, the four address octets and the
big-endian port. -/
theorem assemble_192_payload :
    assemble "192.168.1.42" 7000 =
      .ok [0x00, 0x4C, 0x09, 0x08, 0x13, 0x30, 0xC0, 0xA8, 0x01, 0x2A, 0x1B, 0x58] :=
  rfl

/-- C2: the claim predicts subnet priority, returning the 192.168.x address
of an enumeration even when a 10.x address precedes it. The source loop
tests the three prefixes per element in list order, so the earlier 10.x
address wins: with the outbound probe yielding nothing and the enumeration
[10.0.0.5, 192.168.1.2], the selector returns 10.0.0.5. -/
theorem get_best_ip_order_counterexample :
    get_best_ip ⟨none, some ["10.0.0.5", "192.168.1.2"]⟩ = "10.0.0.5" ∧
    ("10.0.0.5" : String) ≠ "192.168.1.2" :=
  ⟨rfl, by decide⟩

/-- C3: the claim bounds every resolver success by 65535. The text strategy
parses digits with no upper range check, so the five-byte content 99999
resolves to the integer 99999, above 65535. -/
theorem get_uxplay_port_99999 :
    get_uxplay_port ⟨true, [57, 57, 57, 57, 57]⟩ = .ok 99999 ∧ 65535 < 99999 :=
  ⟨rfl, by decide⟩

/-- C3 (amended): only values produced by the binary strategy are bounded:
when the text strategy yields nothing and resolution still succeeds, the
result lies in [1024, 65535]; a value produced by the text strategy is an
arbitrary non-negative integer, possibly above 65535. -/
theorem resolved_binary_value_in_range (content : List Nat) (v : Nat)
    (htext : textStrategy content = none)
    (hok : get_uxplay_port ⟨true, content⟩ = .ok v) :
    1024 ≤ v ∧ v ≤ 65535 := by
  have hp := get_uxplay_port_ok hok
  rw [parsePort, htext] at hp
  exact binaryStrategy_range hp

/-- C3 (amended) at the two-byte content 1F 90: the binary value 8080 is
inside the range. -/
theorem resolved_binary_value_in_range_witness : 1024 ≤ 8080 ∧ 8080 ≤ 65535 :=
  resolved_binary_value_in_range [0x1F, 0x90] 8080 rfl rfl

/-- C5: whenever the first line of the content — bytes before the first
newline, then before the first null — is a nonempty string of ASCII decimal
digits, the resolver returns exactly the integer those digits denote, with
no upper bound, whatever bytes follow. -/
theorem text_digits_resolve (content : List Nat)
    (hne : textChunk content ≠ [])
    (hdig : ∀ b ∈ textChunk content, 48 ≤ b ∧ b ≤ 57) :
    get_uxplay_port ⟨true, content⟩ = .ok (natOfDigits (textChunk content)) := by
  have h1 : isAsciiList (textChunk content) = true := by
    simp only [isAsciiList, List.all_eq_true, decide_eq_true_eq]
    intro b hb
    have := hdig b hb
    omega
  have h2 : isDigitsList (textChunk content) = true := by
    unfold isDigitsList
    rw [Bool.and_eq_true, Bool.not_eq_true']
    constructor
    · cases hch : textChunk content with
      | nil => exact absurd hch hne
      | cons a l => rfl
    · rw [List.all_eq_true]
      intro b hb
      have := hdig b hb
      simp only [Bool.and_eq_true, decide_eq_true_eq]
      omega
  have hts : textStrategy content = some (natOfDigits (textChunk content)) := by
    unfold textStrategy
    simp [h1, h2]
  simp [get_uxplay_port, parsePort, hts]

/-- C5 at the content 8080 newline FF: trailing binary garbage after the
newline does not disturb the parsed value 8080. -/
theorem text_digits_resolve_witness :
    get_uxplay_port ⟨true, [56, 48, 56, 48, 10, 255]⟩ = .ok 8080 :=
  text_digits_resolve [56, 48, 56, 48, 10, 255] (by decide) (by decide)

/-- C6: when the text strategy yields nothing and at least two bytes are
present, the resolver returns the big-endian value of the first two bytes
exactly when that value lies in [1024, 65535], and otherwise fails with
the parse error — the binary strategy is consulted only after the text
strategy and its value is used as-is. -/
theorem binary_fallback_resolve (b0 b1 : Nat) (rest : List Nat)
    (htext : textStrategy (b0 :: b1 :: rest) = none) :
    get_uxplay_port ⟨true, b0 :: b1 :: rest⟩ =
      if 1024 ≤ b0 * 256 + b1 ∧ b0 * 256 + b1 ≤ 65535 then .ok (b0 * 256 + b1)
      else .error .portParseError := by
  have hb : binaryStrategy (b0 :: b1 :: rest) =
      (if 1024 ≤ b0 * 256 + b1 ∧ b0 * 256 + b1 ≤ 65535 then some (b0 * 256 + b1) else none) :=
    rfl
  by_cases hc : 1024 ≤ b0 * 256 + b1 ∧ b0 * 256 + b1 ≤ 65535
  · have hp : parsePort (b0 :: b1 :: rest) = some (b0 * 256 + b1) := by
      rw [parsePort, htext, hb, if_pos hc]
    rw [if_pos hc]
    simp [get_uxplay_port, hp]
  · have hp : parsePort (b0 :: b1 :: rest) = none := by
      rw [parsePort, htext, hb, if_neg hc]
    rw [if_neg hc]
    simp [get_uxplay_port, hp]

/-- C6 at the contents 1F 90 and 00 50: value 8080 is returned, value 80 is
rejected as out of the binary range. -/
theorem binary_fallback_resolve_witness :
    get_uxplay_port ⟨true, [0x1F, 0x90]⟩ = .ok 8080 ∧
    get_uxplay_port ⟨true, [0x00, 0x50]⟩ = .error .portParseError := by
  constructor
  · have h := binary_fallback_resolve 0x1F 0x90 [] rfl
    rw [h, if_pos (by decide)]
  · have h := binary_fallback_resolve 0x00 0x50 [] rfl
    rw [h, if_neg (by decide)]

/-- C7: resolution failure is terminal. A missing file resolves to the
missing-file error and the callback exits with status 1 before any radio
call; an existing file defeating both strategies resolves to the parse
error and the callback exits with status 1 likewise — no advertisement is
started in either case. -/
theorem port_failure_aborts :
    (∀ (fs : FS) (env : NetEnv), fs.fileExists = false →
        get_uxplay_port fs = .error .fileMissing ∧
        start_advertising fs env = .exited 1) ∧
    (∀ (fs : FS) (env : NetEnv), fs.fileExists = true → parsePort fs.content = none →
        get_uxplay_port fs = .error .portParseError ∧
        start_advertising fs env = .exited 1) := by
  constructor
  · intro fs env h
    have hg : get_uxplay_port fs = .error .fileMissing := by
      simp [get_uxplay_port, h]
    exact ⟨hg, by simp [start_advertising, hg]⟩
  · intro fs env h hp
    have hg : get_uxplay_port fs = .error .portParseError := by
      simp [get_uxplay_port, h, hp]
    exact ⟨hg, by simp [start_advertising, hg]⟩

/-- C7 at a missing file and at the two-byte content 00 50 that defeats both
strategies: both terminal failures exit with status 1. -/
theorem port_failure_aborts_witness :
    (get_uxplay_port ⟨false, []⟩ = .error .fileMissing ∧
      start_advertising ⟨false, []⟩ ⟨none, none⟩ = .exited 1) ∧
    (get_uxplay_port ⟨true, [0x00, 0x50]⟩ = .error .portParseError ∧
      start_advertising ⟨true, [0x00, 0x50]⟩ ⟨none, none⟩ = .exited 1) :=
  ⟨port_failure_aborts.1 ⟨false, []⟩ ⟨none, none⟩ rfl,
   port_failure_aborts.2 ⟨true, [0x00, 0x50]⟩ ⟨none, none⟩ rfl rfl⟩

/-- C8: when both probes yield nothing — the outbound-route attempt raises
and the interface enumeration raises — the selector returns exactly the
loopback address. The embedded selector is a total function of the probe
outcomes, so exceptional probe outcomes are ordinary inputs and no failure
escapes. -/
theorem select_address_fallback (env : NetEnv)
    (ha : env.probeA = none) (hb : env.probeB = none) :
    get_best_ip env = "127.0.0.1" := by
  simp [get_best_ip, attempt2, ha, hb]

/-- C8 at the empty environment. -/
theorem select_address_fallback_witness :
    get_best_ip ⟨none, none⟩ = "127.0.0.1" :=
  select_address_fallback ⟨none, none⟩ rfl rfl

/-- C10: a port file whose first line is the text 0 resolves successfully to
the integer 0, yet the falsy-value check in the publisher treats 0 like a
resolution failure: the callback exits with status 1 for every network
environment and never starts advertising. -/
theorem zero_port_exits :
    get_uxplay_port ⟨true, [48, 10]⟩ = .ok 0 ∧
    ∀ (env : NetEnv), start_advertising ⟨true, [48, 10]⟩ env = .exited 1 :=
  ⟨rfl, fun _ => rfl⟩

/-- C10 at a concrete environment. -/
theorem zero_port_exits_witness :
    start_advertising ⟨true, [48, 10]⟩ ⟨none, none⟩ = .exited 1 :=
  zero_port_exits.2 ⟨none, none⟩

/-! ## The combined prefix scan of Probe B -/

/-- The disjunction of the three prefix tests the loop applies per
element. -/
def usefulPrefixTest (ip : String) : Bool :=
  strStartsWith ip "192.168." || strStartsWith ip "10." || strStartsWith ip "172."

/-- The first loop is a single first-match scan over the combined test. -/
theorem pickUseful_eq_find (l : List String) :
    pickUseful l = l.find? usefulPrefixTest := by
  induction l with
  | nil => rfl
  | cons ip rest ih =>
    simp only [pickUseful, List.find?, usefulPrefixTest]
    by_cases h1 : strStartsWith ip "192.168." = true <;>
      by_cases h2 : strStartsWith ip "10." = true <;>
        by_cases h3 : strStartsWith ip "172." = true <;>
          simp [h1, h2, h3, ih, usefulPrefixTest]

/-- The second loop is a first-match scan for a non-loopback entry. -/
theorem pickNonLoopback_eq_find (l : List String) :
    pickNonLoopback l = l.find? fun ip => ip != "127.0.0.1" := by
  induction l with
  | nil => rfl
  | cons ip rest ih =>
    by_cases h : ip = "127.0.0.1"
    · subst h
      simp [pickNonLoopback, List.find?, ih]
    · have hbne : (ip != "127.0.0.1") = true := by
        rw [bne_iff_ne]
        exact h
      simp [pickNonLoopback, List.find?, h, hbne, ih]

/-- C2 (amended): in Probe B there is no inter-subnet ranking — the selector
returns the first enumerated address matching any of the three prefixes
192.168., 10. and 172. in list order, else the first non-loopback address,
else the loopback; so an earlier 10.x entry beats a later 192.168.x
entry. -/
theorem get_best_ip_probeB_first_match (env : NetEnv) (l : List String)
    (ha : env.probeA = none) (hb : env.probeB = some l) :
    get_best_ip env =
      ((l.find? usefulPrefixTest).getD
        ((l.find? fun ip => ip != "127.0.0.1").getD "127.0.0.1")) := by
  simp only [get_best_ip, attempt2, ha, hb]
  rw [← pickUseful_eq_find, ← pickNonLoopback_eq_find]
  cases pickUseful l with
  | some ip => simp
  | none =>
    cases pickNonLoopback l with
    | some ip => simp
    | none => simp

/-- C2 (amended) at a one-element enumeration carrying the 172. prefix. -/
theorem get_best_ip_probeB_first_match_witness :
    get_best_ip ⟨none, some ["172.20.0.9"]⟩ = "172.20.0.9" := by
  have h := get_best_ip_probeB_first_match ⟨none, some ["172.20.0.9"]⟩ ["172.20.0.9"] rfl rfl
  rw [h]
  rfl

/-! ## The decimal parser accepts every canonical octet rendering -/

/-- The accumulation step of the decimal loop. -/
def digitStep (a : Nat) (c : Char) : Nat :=
  a * 10 + (c.toNat - 48)

/-- Code point of a rendered digit. -/
theorem digitChar_toNat {d : Nat} (hd : d ≤ 9) : (digitChar d).toNat = 48 + d := by
  interval_cases d <;> rfl

/-- A rendered digit passes the digit test. -/
theorem isDigitChar_digitChar {d : Nat} (hd : d ≤ 9) : isDigitChar (digitChar d) = true := by
  unfold isDigitChar
  rw [digitChar_toNat hd]
  simp only [Bool.and_eq_true, decide_eq_true_eq]
  omega

/-- A nonzero rendered digit is not the zero character. -/
theorem digitChar_ne_zero {d : Nat} (h1 : 1 ≤ d) (hd : d ≤ 9) : ¬ digitChar d = '0' := by
  interval_cases d <;> decide

/-- Unfolding of the rendering below ten. -/
theorem renderNat_small {n : Nat} (h : n < 10) : renderNat n = [digitChar n] := by
  unfold renderNat
  rw [if_pos h]

/-- Unfolding of the rendering from ten upward. -/
theorem renderNat_large {n : Nat} (h : ¬ n < 10) :
    renderNat n = renderNat (n / 10) ++ [digitChar (n % 10)] := by
  conv_lhs => unfold renderNat
  rw [if_neg h]

/-- Every character of a rendering is a decimal digit. -/
theorem renderNat_all_digits (n : Nat) : ∀ c ∈ renderNat n, isDigitChar c = true := by
  induction n using Nat.strong_induction_on with
  | _ n ih =>
    by_cases h : n < 10
    · rw [renderNat_small h]
      intro c hc
      rw [List.mem_singleton] at hc
      subst hc
      exact isDigitChar_digitChar (by omega)
    · rw [renderNat_large h]
      intro c hc
      rw [List.mem_append] at hc
      rcases hc with hc | hc
      · exact ih (n / 10) (Nat.div_lt_self (by omega) (by omega)) c hc
      · rw [List.mem_singleton] at hc
        subst hc
        exact isDigitChar_digitChar (by omega)

/-- A rendering starts with a digit that is nonzero unless the value is. -/
theorem renderNat_head (n : Nat) :
    ∃ c cs, renderNat n = c :: cs ∧ isDigitChar c = true ∧ (n ≠ 0 → ¬ c = '0') := by
  induction n using Nat.strong_induction_on with
  | _ n ih =>
    by_cases h : n < 10
    · rw [renderNat_small h]
      exact ⟨digitChar n, [], rfl, isDigitChar_digitChar (by omega),
        fun hn => digitChar_ne_zero (by omega) (by omega)⟩
    · obtain ⟨c, cs, hr, hd, hz⟩ := ih (n / 10) (Nat.div_lt_self (by omega) (by omega))
      refine ⟨c, cs ++ [digitChar (n % 10)], ?_, hd, fun _ => hz (by omega)⟩
      rw [renderNat_large h, hr]
      rfl

/-- Folding the accumulation step over a rendering recovers the value. -/
theorem foldl_renderNat (n : Nat) : (renderNat n).foldl digitStep 0 = n := by
  induction n using Nat.strong_induction_on with
  | _ n ih =>
    by_cases h : n < 10
    · rw [renderNat_small h]
      simp only [List.foldl_cons, List.foldl_nil, digitStep]
      rw [digitChar_toNat (by omega)]
      omega
    · rw [renderNat_large h, List.foldl_append]
      rw [ih (n / 10) (Nat.div_lt_self (by omega) (by omega))]
      simp only [List.foldl_cons, List.foldl_nil, digitStep]
      rw [digitChar_toNat (show n % 10 ≤ 9 by omega)]
      omega

/-- The decimal loop consumes a leading block of digits as one fold. -/
theorem decLoop_digits (ds : List Char) (hds : ∀ c ∈ ds, isDigitChar c = true) :
    ∀ acc rest, decLoop acc (ds ++ rest) = decLoop (ds.foldl digitStep acc) rest := by
  induction ds with
  | nil => intro acc rest; rfl
  | cons c cs ih =>
    intro acc rest
    have hc := hds c (by simp)
    rw [List.cons_append]
    show decLoop acc (c :: (cs ++ rest)) = _
    rw [show decLoop acc (c :: (cs ++ rest)) =
        (if isDigitChar c then decLoop (acc * 10 + (c.toNat - 48)) (cs ++ rest)
         else (acc, c :: (cs ++ rest))) from rfl]
    rw [hc]
    simp only [if_true, List.foldl_cons]
    exact ih (fun x hx => hds x (by simp [hx])) _ rest

/-- The decimal loop stops at an empty or non-digit remainder. -/
theorem decLoop_stop (acc : Nat) (rest : List Char)
    (h : rest = [] ∨ ∃ c cs, rest = c :: cs ∧ isDigitChar c = false) :
    decLoop acc rest = (acc, rest) := by
  rcases h with rfl | ⟨c, cs, rfl, hc⟩
  · rfl
  · rw [show decLoop acc (c :: cs) =
        (if isDigitChar c then decLoop (acc * 10 + (c.toNat - 48)) cs
         else (acc, c :: cs)) from rfl]
    rw [hc]
    simp

/-- A canonical rendering followed by a dot or by nothing parses to exactly
its value with the remainder untouched. -/
theorem parseNum_renderNat (n : Nat) (rest : List Char)
    (hrest : rest = [] ∨ ∃ r, rest = '.' :: r) :
    parseNum (renderNat n ++ rest) = some (n, rest) := by
  by_cases hn : n = 0
  · subst hn
    rw [renderNat_small (by omega)]
    rw [show digitChar 0 = '0' from rfl]
    rcases hrest with rfl | ⟨r, rfl⟩
    · rfl
    · rw [List.cons_append, List.nil_append]
      rw [show parseNum ('0' :: '.' :: r) = octLoop 0 ('.' :: r) from rfl]
      rw [show octLoop 0 ('.' :: r) = some (0, '.' :: r) from rfl]
  · obtain ⟨c, cs, hr, hdc, hz⟩ := renderNat_head n
    rw [hr, List.cons_append]
    rw [show parseNum (c :: (cs ++ rest)) =
        (if isDigitChar c then
          if c = '0' then
            match cs ++ rest with
            | [] => octLoop 0 []
            | c2 :: cs2 =>
              if c2 = 'x' || c2 = 'X' then some (hexLoop 0 cs2)
              else octLoop 0 (c2 :: cs2)
          else some (decLoop 0 (c :: (cs ++ rest)))
        else none) from rfl]
    rw [hdc]
    simp only [if_true]
    rw [if_neg (hz hn)]
    have hall : ∀ x ∈ c :: cs, isDigitChar x = true := by
      rw [← hr]
      exact renderNat_all_digits n
    have hdl : decLoop 0 ((c :: cs) ++ rest) = decLoop ((c :: cs).foldl digitStep 0) rest :=
      decLoop_digits (c :: cs) hall 0 rest
    rw [List.cons_append] at hdl
    rw [hdl]
    have hfold : (c :: cs).foldl digitStep 0 = n := by
      rw [← hr]
      exact foldl_renderNat n
    rw [hfold]
    rw [decLoop_stop n rest ?_]
    rcases hrest with rfl | ⟨r, rfl⟩
    · exact Or.inl rfl
    · exact Or.inr ⟨'.', r, rfl, by decide⟩

/-- The unrolled main loop accepts a canonical dotted quad and yields the
four octet values in order. -/
theorem atonCore_quad (a b c d : Nat) (ha : a ≤ 255) (hb : b ≤ 255)
    (hc : c ≤ 255) (hd : d ≤ 255) :
    atonCore (renderNat a ++
        ('.' :: (renderNat b ++ ('.' :: (renderNat c ++ ('.' :: renderNat d)))))) =
      some [a, b, c, d] := by
  have p1 : parseNum (renderNat a ++
      ('.' :: (renderNat b ++ ('.' :: (renderNat c ++ ('.' :: renderNat d)))))) =
      some (a, '.' :: (renderNat b ++ ('.' :: (renderNat c ++ ('.' :: renderNat d))))) :=
    parseNum_renderNat a _ (Or.inr ⟨_, rfl⟩)
  have p2 : parseNum (renderNat b ++ ('.' :: (renderNat c ++ ('.' :: renderNat d)))) =
      some (b, '.' :: (renderNat c ++ ('.' :: renderNat d))) :=
    parseNum_renderNat b _ (Or.inr ⟨_, rfl⟩)
  have p3 : parseNum (renderNat c ++ ('.' :: renderNat d)) =
      some (c, '.' :: renderNat d) :=
    parseNum_renderNat c _ (Or.inr ⟨_, rfl⟩)
  have p4 : parseNum (renderNat d) = some (d, []) := by
    have h := parseNum_renderNat d [] (Or.inl rfl)
    rwa [List.append_nil] at h
  unfold atonCore
  rw [p1]
  simp only [p2, p3, p4]
  rw [show finish [a, b, c] d [] = finishParts [a, b, c] d from rfl]
  rw [show finishParts [a, b, c] d =
      (if a ≤ 255 ∧ b ≤ 255 ∧ c ≤ 255 ∧ d ≤ 255 then some [a, b, c, d] else none) from rfl]
  rw [if_pos ⟨ha, hb, hc, hd⟩]

/-- `inet_aton` maps a canonical dotted quad to its four octets. -/
theorem inet_aton_quadStr (a b c d : Nat) (ha : a ≤ 255) (hb : b ≤ 255)
    (hc : c ≤ 255) (hd : d ≤ 255) :
    inet_aton (quadStr a b c d) = some [a, b, c, d] :=
  atonCore_quad a b c d ha hb hc hd

/-- `assemble` on a canonical dotted quad and an in-range port produces the
five fields in source order. -/
theorem assemble_quadStr (a b c d port : Nat) (ha : a ≤ 255) (hb : b ≤ 255)
    (hc : c ≤ 255) (hd : d ≤ 255) (hp : port ≤ 65535) :
    assemble (quadStr a b c d) port =
      .ok (company_id ++ pfx ++ magic ++ [a, b, c, d] ++ [port / 256, port % 256]) := by
  unfold assemble
  rw [inet_aton_quadStr a b c d ha hb hc hd]
  rw [show pack16 port = some [port / 256, port % 256] from by
    unfold pack16
    rw [if_pos hp]]

/-- C4: the claim makes assembly fail for every string that is not a
well-formed dotted quad, naming abbreviated forms in particular. The string
127.1 has two components, so it is no dotted quad, yet `inet_aton` accepts
it under numbers-and-dots notation as 127.0.0.1 and assembly succeeds. -/
theorem assemble_abbreviated_counterexample :
    specDottedQuad "127.1" = false ∧
    assemble "127.1" 7000 =
      .ok [0x00, 0x4C, 0x09, 0x08, 0x13, 0x30, 127, 0, 0, 1, 0x1B, 0x58] :=
  ⟨rfl, rfl⟩

/-- C4 (amended): assembly fails with the invalid-address error exactly when
`inet_aton` rejects the string, and that acceptance is wider than dotted
quads. Every canonical dotted quad — four octet values at most 255, rendered
in decimal without leading zeros — is accepted and assembled, and a
non-numeric string such as not-an-ip is rejected; but abbreviated forms with
fewer than four components are accepted too. -/
theorem assemble_quad_ok :
    (∀ a b c d port, a ≤ 255 → b ≤ 255 → c ≤ 255 → d ≤ 255 → port ≤ 65535 →
      assemble (quadStr a b c d) port =
        .ok (company_id ++ pfx ++ magic ++ [a, b, c, d] ++ [port / 256, port % 256])) ∧
    assemble "not-an-ip" 7000 = .error .invalidAddress :=
  ⟨fun a b c d port ha hb hc hd hp => assemble_quadStr a b c d port ha hb hc hd hp, rfl⟩

/-- C4 (amended) at the quad 192.168.1.42 and port 7000. -/
theorem assemble_quad_ok_witness :
    assemble (quadStr 192 168 1 42) 7000 =
      .ok (company_id ++ pfx ++ magic ++ [192, 168, 1, 42] ++ [7000 / 256, 7000 % 256]) :=
  assemble_quad_ok.1 192 168 1 42 7000 (by decide) (by decide) (by decide) (by decide)
    (by decide)

/-- C9: for every canonical dotted-quad address and every port in
[0, 65535], the assembled payload is exactly 12 bytes and carries the
fields in the fixed order vendor id, prefix, magic, the four address
octets, big-endian port. -/
theorem payload_layout_fixed (a b c d port : Nat) (ha : a ≤ 255) (hb : b ≤ 255)
    (hc : c ≤ 255) (hd : d ≤ 255) (hp : port ≤ 65535) :
    ∃ payload,
      assemble (quadStr a b c d) port = .ok payload ∧
      payload = company_id ++ pfx ++ magic ++ [a, b, c, d] ++ [port / 256, port % 256] ∧
      payload.length = 12 :=
  ⟨company_id ++ pfx ++ magic ++ [a, b, c, d] ++ [port / 256, port % 256],
    assemble_quadStr a b c d port ha hb hc hd hp, rfl,
    by simp [company_id, pfx, magic]⟩

/-- C9 at the quad 10.0.0.1 and port 5000. -/
theorem payload_layout_fixed_witness :
    ∃ payload,
      assemble (quadStr 10 0 0 1) 5000 = .ok payload ∧
      payload = company_id ++ pfx ++ magic ++ [10, 0, 0, 1] ++ [5000 / 256, 5000 % 256] ∧
      payload.length = 12 :=
  payload_layout_fixed 10 0 0 1 5000 (by decide) (by decide) (by decide) (by decide)
    (by decide)
